import Mathlib

/-!
Shallow embedding of the mongoose-versioner plugin (index.js, together
with the extended variant providing upsertVersion and deleteOriginal),
over an abstract document store.

Ids are modelled as pairs of a stored value (what `toString()` and
database queries compare) and a reference tag (JavaScript object
identity, what the strict `===` operator compares on two ObjectId
instances).  Domain fields are a function from an abstract field type
`F` to `Option V` (`none` means the path is unset and absent from
`toObject()`).  The store carries a counter supplying fresh id values
and fresh reference tags.
-/

/-- A MongoDB ObjectId as an in-memory JavaScript value: `val` is the
stored identifier (compared by `toString()` and by database queries),
`ref` is the object identity (compared by the strict `===` operator;
two distinct ObjectId instances with the same stored value are not
strictly equal). -/
structure OId where
  val : Nat
  ref : Nat
deriving DecidableEq

/-- comparison `a.toString() === b.toString()` and database id matching:
value equality of the stored identifiers. -/
def oidValEq (a b : OId) : Bool := a.val == b.val

/-- JavaScript `===` on two ObjectId instances: reference identity. -/
def oidRefEq (a b : OId) : Bool := a.ref == b.ref

/-- strict equality `x === b` where `x : Option OId` may be `null`;
`null === someObjectId` is false. -/
def optRefEq (a : Option OId) (b : OId) : Bool :=
  match a with
  | some x => oidRefEq x b
  | none => false

/-- value comparison of an optional id against an id
(a `null` value matches no id). -/
def optValEq (o : Option OId) (i : OId) : Bool :=
  match o with
  | some w => w.val == i.val
  | none => false

/-- value comparison of two optional ids (used by conditional updates
whose filter carries an id token; nothing matches when either side is
absent). -/
def optValEqOpt (a b : Option OId) : Bool :=
  match a, b with
  | some x, some y => x.val == y.val
  | _, _ => false

/-- The JavaScript values relevant to the `toObject` probe in
saveVersion (index.js line 284): `data.toObject` is either a bound
function (when `data` is a store document) or `undefined` (when `data`
is a plain object). -/
inductive JsVal where
  | vundef
  | vstr (s : String)
  | vfunc (tag : Nat)
deriving DecidableEq, BEq

/-- JavaScript strict equality on these values: `undefined` equals only
itself, strings compare by value, functions by identity; values of
different types are never strictly equal. -/
def jsStrictEq (a b : JsVal) : Bool := a == b

variable {F V : Type}

/-- A document of the shadow collection (a Version Record): `_id`, the
mirrored domain fields, and the `versionOfId` back-reference.  The
shadow schema is cloned from the primary schema before `versionId` is
added to the primary schema, so a Version Record carries no `versionId`
field. -/
structure VersionDoc (F V : Type) where
  oid : OId
  fields : F → Option V
  versionOfId : Option OId

/-- A document of the primary collection (an Active Document):
`_id`, the domain fields, and the `versionId` pointer (possibly unset
on documents not created through the protocol). -/
structure ActiveDoc (F V : Type) where
  oid : OId
  fields : F → Option V
  versionId : Option OId

/-- The two collections plus a counter supplying fresh id values and
fresh reference tags; every id allocated so far lies below `ctr`. -/
structure Store (F V : Type) where
  actives : List (ActiveDoc F V)
  versions : List (VersionDoc F V)
  ctr : Nat

/-- `model.findById(i)` on the primary collection. -/
def findActive (s : Store F V) (i : OId) : Option (ActiveDoc F V) :=
  s.actives.find? (fun a => oidValEq a.oid i)

/-- `model.findById(x)` where `x` may be `null`; a `null` id resolves to
no document. -/
def findActiveOpt (s : Store F V) (i : Option OId) : Option (ActiveDoc F V) :=
  match i with
  | some x => findActive s x
  | none => none

/-- `shadowModel.findById(i)` on the shadow collection. -/
def findVersion (s : Store F V) (i : OId) : Option (VersionDoc F V) :=
  s.versions.find? (fun v => oidValEq v.oid i)

/-- `shadowModel.findById(x)` where `x` may be `null`. -/
def findVersionOpt (s : Store F V) (i : Option OId) : Option (VersionDoc F V) :=
  match i with
  | some x => findVersion s x
  | none => none

/-- `doc.save()` on a shadow document already present in the store: the
stored document with the same id value is replaced. -/
def updateVersion (s : Store F V) (vd : VersionDoc F V) : Store F V :=
  { s with versions := s.versions.map (fun v => if v.oid.val == vd.oid.val then vd else v) }

/-- the shallow copy loop `for (key in src) dst[key] = src[key]`
over domain fields: keys present on `src` overwrite the destination,
keys absent from `src` (unset, hence absent from `toObject()`) keep the
destination value. -/
def mergeFields (src dst : F → Option V) : F → Option V :=
  fun f =>
    match src f with
    | some v => some v
    | none => dst f

/-- whether an optional id is present with value below `n`. -/
def optValLt (o : Option OId) (n : Nat) : Bool :=
  match o with
  | some w => decide (w.val < n)
  | none => false

/-- Well-formed store: every stored id value lies below the freshness
counter, and every Active Document carries a `versionId` whose value
also lies below the counter (the protocol sets `versionId` on every
Active Document it creates). -/
def storeWF (s : Store F V) : Prop :=
  (∀ a ∈ s.actives, a.oid.val < s.ctr ∧ optValLt a.versionId s.ctr = true) ∧
  (∀ v ∈ s.versions, v.oid.val < s.ctr)

/-- The argument of saveVersion (index.js lines 270–350): `data` is the
domain-field view of `dataObj.data`, `snapshot` is what `data.toObject()`
would return when `data` is a store document, `toObjectTag` the identity
of that bound function (`none` when `data` is a plain object, whose
`toObject` is `undefined`), and the two link fields. -/
structure SaveData (F V : Type) where
  data : F → Option V
  snapshot : F → Option V
  toObjectTag : Option Nat
  versionId : Option OId
  versionOfId : Option OId

/-- the value of `data.toObject` as a JavaScript value. -/
def dataToObjectVal (d : SaveData F V) : JsVal :=
  match d.toObjectTag with
  | some t => JsVal.vfunc t
  | none => JsVal.vundef

/-- index.js line 284: `if ("function" === data.toObject)` — strict
equality between the string literal and the value (not the type) of
`data.toObject`. -/
def toObjectGuard (d : SaveData F V) : Bool :=
  jsStrictEq (JsVal.vstr "function") (dataToObjectVal d)

/-- index.js lines 283–286: the data whose keys are then copied into the
Version Record — the `toObject()` snapshot when the guard fired, the raw
object otherwise. -/
def saveDataEffective (d : SaveData F V) : F → Option V :=
  if toObjectGuard d then d.snapshot else d.data

/-- steps 1–2 of saveVersion (index.js lines 277–297): look the Version
Record up by `dataObj.versionId`; when absent create a new one from the
data (with a fresh id), otherwise copy the data keys onto the found
record; then set its `versionOfId` from the argument.  This is the
record handed to `save`. -/
def savedVersion (s : Store F V) (d : SaveData F V) : VersionDoc F V :=
  match findVersionOpt s d.versionId with
  | none =>
      { oid := { val := s.ctr, ref := s.ctr },
        fields := saveDataEffective d,
        versionOfId := d.versionOfId }
  | some v =>
      { v with
        fields := mergeFields (saveDataEffective d) v.fields,
        versionOfId := d.versionOfId }

/-- the store after the step-2 `versDoc.save(...)` (index.js line 299):
an insert consuming a fresh id when the record is new, an in-place
update otherwise. -/
def storeAfterVersionSave (s : Store F V) (d : SaveData F V) : Store F V :=
  match findVersionOpt s d.versionId with
  | none => { s with versions := s.versions ++ [savedVersion s d], ctr := s.ctr + 1 }
  | some _ => updateVersion s (savedVersion s d)

/-- runtime faults of the JavaScript code (here: calling `toString` on
an undefined `versionId`). -/
inductive Fault where
  | typeError (msg : String)
deriving DecidableEq

/-- saveVersion (index.js lines 270–350).  The result is the store after
the call together with the document delivered to the callback (`none`
models `callback(err)` with no second argument, which index.js line 334
performs when the strict-equality guard holds with no error). -/
def saveVersionModel (s : Store F V) (d : SaveData F V) :
    Except Fault (Store F V × Option (VersionDoc F V)) :=
  let versSaved := savedVersion s d
  let s1 := storeAfterVersionSave s d
  -- lines 308–318: look the Active Document up by `dataObj.versionOfId`;
  -- when none exists create one in memory (fresh id) pointing at the
  -- just-saved record
  let triple : ActiveDoc F V × Bool × Store F V :=
    match findActiveOpt s1 d.versionOfId with
    | some a => (a, false, s1)
    | none =>
        ({ oid := { val := s1.ctr, ref := s1.ctr },
           fields := fun _ => none,
           versionId := some versSaved.oid }, true, { s1 with ctr := s1.ctr + 1 })
  let original := triple.1
  let isNew := triple.2.1
  let s2 := triple.2.2
  -- line 320: `original[versionIdPath].toString() !== versSaved._id.toString()`
  -- faults when the found document carries no versionId
  match original.versionId with
  | none => Except.error (Fault.typeError "versionId is undefined")
  | some w =>
    match oidValEq w versSaved.oid with
    | false =>
        -- lines 320–322: not the active version: accepted without
        -- promotion, the saved record is delivered
        Except.ok (s2, some versSaved)
    | true =>
      -- lines 324–330: copy every key of versSaved.toObject() except
      -- the identifier and the back-reference onto the Active Document
      let original2 : ActiveDoc F V :=
        { original with fields := mergeFields versSaved.fields original.fields }
      -- line 332: original.save()
      let s3 : Store F V :=
        match isNew with
        | true => { s2 with actives := s2.actives ++ [original2] }
        | false =>
            { s2 with actives :=
                s2.actives.map (fun a => if a.oid.val == original2.oid.val then original2 else a) }
      -- line 334: `err || versDocObj[versionOfIdPath] === originalSaved._id`
      -- — JavaScript strict (reference) equality; when it holds the
      -- callback receives no document
      match optRefEq versSaved.versionOfId original2.oid with
      | true => Except.ok (s3, none)
      | false =>
        -- lines 338–342: re-save the Version Record pointing at the
        -- Active Document and deliver the re-saved record
        let versSaved2 := { versSaved with versionOfId := some original2.oid }
        Except.ok (updateVersion s3 versSaved2, some versSaved2)

/-- the Active Document saveVersion creates and promotes on the
new-lineage path (steps 3–4a): a fresh id, default (unset) fields
overwritten by the saved record's keys, and `versionId` pointing at the
saved record. -/
def newLineageActive (s : Store F V) (d : SaveData F V) : ActiveDoc F V :=
  { oid := { val := (storeAfterVersionSave s d).ctr, ref := (storeAfterVersionSave s d).ctr },
    fields := mergeFields (savedVersion s d).fields (fun _ => none),
    versionId := some (savedVersion s d).oid }

/-- the Version Record as re-saved in step 5 of the new-lineage path:
`versionOfId` closed to the freshly inserted Active Document's id. -/
def newLineageVersion (s : Store F V) (d : SaveData F V) : VersionDoc F V :=
  { savedVersion s d with versionOfId := some (newLineageActive s d).oid }

/-- the store at the end of the new-lineage path of saveVersion: the
Active Document inserted, the Version Record re-saved. -/
def newLineageStore (s : Store F V) (d : SaveData F V) : Store F V :=
  updateVersion
    { storeAfterVersionSave s d with
      actives := (storeAfterVersionSave s d).actives ++ [newLineageActive s d],
      ctr := (storeAfterVersionSave s d).ctr + 1 }
    (newLineageVersion s d)

/-- deleteVersion (index.js lines 367–407): refuse when some Active
Document's `versionId` matches the id; otherwise look the Version
Record up and remove it when present. -/
def deleteVersionModel (s : Store F V) (i : OId) : Store F V × Bool :=
  match s.actives.find? (fun a => optValEq a.versionId i) with
  | some _ => (s, false)
  | none =>
    match findVersion s i with
    | none => (s, false)
    | some v =>
        ({ s with versions := s.versions.filter (fun x => !(x.oid.val == v.oid.val)) }, true)

/-- outcome of activateVersion as seen by the caller: either a failure
result or the saved Active Document. -/
inductive ActResult (F V : Type) where
  | fail
  | ok (a : ActiveDoc F V)

/-- activateVersion (index.js lines 420–465): locate the Version Record,
then the Active Document behind its `versionOfId`; copy every key except
the identifier and the back-reference onto the Active Document, set its
`versionId` to the argument id, and save it. -/
def activateVersionModel (s : Store F V) (i : OId) : Store F V × ActResult F V :=
  match findVersion s i with
  | none => (s, ActResult.fail)
  | some result =>
    match findActiveOpt s result.versionOfId with
    | none => (s, ActResult.fail)
    | some active =>
      let active2 : ActiveDoc F V :=
        { active with fields := mergeFields result.fields active.fields,
                      versionId := some i }
      ({ s with actives :=
           s.actives.map (fun a => if a.oid.val == active2.oid.val then active2 else a) },
       ActResult.ok active2)

/-- plugin setup (index.js lines 86–114) over an abstract type `O` of
schema path options: clone every path except `_id` into the shadow
shape; fail when the configured `versionOfId` name is already among the
cloned shadow fields; add `versionOfId` to the shadow shape; fail when
the configured `versionId` name is already a path of the primary
schema; add `versionId` to the primary shape. -/
def setupSchemas {O : Type} (paths : List (String × O)) (oidOpts : O)
    (vIdP vOfP : String) : Except String (List (String × O) × List (String × O)) :=
  let shadowFields := paths.filter (fun kv => kv.1 != "_id")
  match shadowFields.find? (fun kv => kv.1 == vOfP) with
  | some _ => Except.error "options.versionOfIdPath must not be declared in the schema"
  | none =>
    match paths.find? (fun kv => kv.1 == vIdP) with
    | some _ =>
        Except.error "options.versionIdPath must be declared in the schema by mongoose-versioner"
    | none => Except.ok (paths ++ [(vIdP, oidOpts)], shadowFields ++ [(vOfP, oidOpts)])

/-- the argument of upsertVersion (the extended variant): `dataObj` with
its `_id`, its version token, and its domain fields. -/
structure UpsertData (F V : Type) where
  docId : Option OId
  versionId : Option OId
  fields : F → Option V

/-- errors upsertVersion delivers to its callback: the missing-revision
check and the stale-revision concurrency conflict. -/
inductive UpsertErr where
  | missingRevision
  | staleRevision (token : Option OId)
deriving DecidableEq

/-- upsertVersion (extended variant, lines 363–431).  The result is the
store after the call and either the callback error or the document the
callback received (`findOneAndUpdate` is called without `new:true`, so
the pre-update document is returned on the update path). -/
def upsertVersionModel (appendOnly : Bool) (s : Store F V) (d : UpsertData F V)
    (query : Option (ActiveDoc F V → Bool)) :
    Store F V × Except UpsertErr (ActiveDoc F V) :=
  match d.docId with
  | none =>
    -- create branch: build the document, speculatively save a shadow
    -- copy, then insert-if-absent under the uniqueness query
    let original : ActiveDoc F V :=
      { oid := { val := s.ctr, ref := s.ctr }, fields := d.fields, versionId := d.versionId }
    let versSaved : VersionDoc F V :=
      { oid := { val := s.ctr + 1, ref := s.ctr + 1 },
        fields := original.fields, versionOfId := some original.oid }
    let s1 : Store F V := { s with versions := s.versions ++ [versSaved], ctr := s.ctr + 2 }
    let original2 := { original with versionId := some versSaved.oid }
    let qpred : ActiveDoc F V → Bool :=
      match query with
      | some qp => qp
      | none => fun a => a.oid.val == original2.oid.val
    match s1.actives.find? qpred with
    | some doc =>
        -- the insert did not take place: compensating delete of the
        -- speculative Version Record, the existing document is returned
        ({ s1 with versions := s1.versions.filter (fun v => !(v.oid.val == versSaved.oid.val)) },
         Except.ok doc)
    | none =>
        ({ s1 with actives := s1.actives ++ [original2] }, Except.ok original2)
  | some i =>
    match !appendOnly && d.versionId.isNone with
    | true => (s, Except.error UpsertErr.missingRevision)
    | false =>
      -- speculatively create the shadow copy of the incoming data
      let versSaved : VersionDoc F V :=
        { oid := { val := s.ctr, ref := s.ctr }, fields := d.fields, versionOfId := some i }
      let s1 : Store F V := { s with versions := s.versions ++ [versSaved], ctr := s.ctr + 1 }
      -- conditional update: the filter carries the version token unless
      -- running append-only
      let qpred : ActiveDoc F V → Bool := fun a =>
        a.oid.val == i.val && (appendOnly || optValEqOpt a.versionId d.versionId)
      match s1.actives.find? qpred with
      | none =>
          -- token mismatch: compensating delete, concurrency conflict error
          ({ s1 with versions := s1.versions.filter (fun v => !(v.oid.val == versSaved.oid.val)) },
           Except.error (UpsertErr.staleRevision d.versionId))
      | some a =>
          let a2 : ActiveDoc F V :=
            { a with fields := mergeFields d.fields a.fields, versionId := some versSaved.oid }
          ({ s1 with actives := s1.actives.map (fun x => if x.oid.val == a2.oid.val then a2 else x) },
           Except.ok a)

/-- the query object handed to deleteOriginal: an optional `_id` filter
and the version token under the `versionId` path. -/
structure DOQuery where
  qId : Option OId
  qVersionId : Option OId

/-- what the caller of deleteOriginal observes: a synchronous JavaScript
exception escaping the callback, a callback error, or a plain success
callback. -/
inductive DOOutcome where
  | thrown (msg : String)
  | cbErr (msg : String)
  | cbOk
deriving DecidableEq

/-- whether an Active Document matches the deleteOriginal query. -/
def doQueryMatches (q : DOQuery) (a : ActiveDoc F V) : Bool :=
  (match q.qId with
   | some i => a.oid.val == i.val
   | none => true) &&
  (match q.qVersionId with
   | some t => optValEq a.versionId t
   | none => true)

/-- deleteOriginal (extended variant, lines 443–503).  Parameters: the
append-only flag, the configured delete-flag field when set, the
boolean-true value stored under it, and the outcome of the store
operation that removes the Active Document (`none` = success).  Store
reads and the shadow writes are modelled as succeeding.  In the flagged
branch the remove-failure handler evaluates `versSaved.remove()`, but
the identifier `versSaved` is not declared anywhere in that closure
(it only exists inside the append-only branch), so under strict mode a
ReferenceError is thrown before `callback(err)` can run. -/
def deleteOriginalModel [DecidableEq F] (appendOnly : Bool) (deleteFlag : Option F)
    (vtrue : V) (removeErr : Option String) (s : Store F V) (q : DOQuery)
    (dataObj : F → Option V) : Store F V × DOOutcome :=
  match !appendOnly && q.qVersionId.isNone with
  | true => (s, DOOutcome.cbErr "Please specify the revision you would like to change.")
  | false =>
    match s.actives.filter (doQueryMatches q) with
    | [] => (s, DOOutcome.cbErr "your copy of the data set is not up-to-date")
    | _ :: _ :: _ => (s, DOOutcome.cbErr "Cannot delete more than one document.")
    | [origSaved] =>
      -- build origObj: snapshot the document, set the back-reference,
      -- drop the identifier and the pointer, set the delete flag, then
      -- merge the optional extra attributes over it
      let flaggedFields : F → Option V :=
        match deleteFlag with
        | some flagF => fun f => if f == flagF then some vtrue else origSaved.fields f
        | none => origSaved.fields
      let origObjFields := mergeFields dataObj flaggedFields
      match appendOnly with
      | true =>
        -- append-only: save a brand-new terminal Version Record, then
        -- remove the Active Document (compensating delete on failure)
        let versSaved : VersionDoc F V :=
          { oid := { val := s.ctr, ref := s.ctr },
            fields := origObjFields, versionOfId := some origSaved.oid }
        let s1 : Store F V := { s with versions := s.versions ++ [versSaved], ctr := s.ctr + 1 }
        match removeErr with
        | some msg =>
            ({ s1 with versions := s1.versions.filter (fun v => !(v.oid.val == versSaved.oid.val)) },
             DOOutcome.cbErr msg)
        | none =>
            ({ s1 with actives := s1.actives.filter (fun a => !(a.oid.val == origSaved.oid.val)) },
             DOOutcome.cbOk)
      | false =>
        match deleteFlag with
        | some flagF =>
          -- flagged: mutate the active Version Record in place to carry
          -- the delete flag, then remove the Active Document
          match q.qVersionId with
          | none =>
              -- unreachable behind the guard above; an undefined filter
              -- id matches no shadow document
              (s, DOOutcome.cbErr "Your version documents are inconsistent.")
          | some t =>
            match s.versions.find? (fun v => v.oid.val == t.val) with
            | none => (s, DOOutcome.cbErr "Your version documents are inconsistent.")
            | some ver =>
              let ver2 : VersionDoc F V :=
                { ver with fields := fun f => if f == flagF then some vtrue else ver.fields f }
              let s1 := updateVersion s ver2
              match removeErr with
              | some _ =>
                  -- line 492: `versSaved.remove()` with versSaved not in
                  -- scope — a ReferenceError is thrown, the callback
                  -- never receives the store error
                  (s1, DOOutcome.thrown "ReferenceError: versSaved is not defined")
              | none =>
                  ({ s1 with actives := s1.actives.filter (fun a => !(a.oid.val == origSaved.oid.val)) },
                   DOOutcome.cbOk)
        | none =>
            (s, DOOutcome.cbErr "Do not know what to do, both append_only and delete_flag are not set.")

/-! concrete instances used by witnesses and counterexamples -/

/-- concrete store for the C2 witness: one Active Document whose
`versionId` references the single Version Record. -/
def sC2 : Store Bool Nat :=
  { actives := [{ oid := { val := 1, ref := 1 }, fields := fun _ => some 0,
                  versionId := some { val := 2, ref := 2 } }],
    versions := [{ oid := { val := 2, ref := 2 }, fields := fun _ => some 0,
                   versionOfId := some { val := 1, ref := 1 } }],
    ctr := 3 }

/-- concrete store for the C5 witness. -/
def sC5 : Store Bool Nat :=
  { actives := [{ oid := { val := 1, ref := 1 }, fields := fun _ => some 0,
                  versionId := some { val := 2, ref := 2 } }],
    versions := [{ oid := { val := 3, ref := 3 }, fields := fun f => if f then some 9 else none,
                   versionOfId := some { val := 1, ref := 1 } }],
    ctr := 4 }

/-- concrete store for the C1 witness: the Active Document's `versionId`
targets the stored Version Record. -/
def sC1 : Store Bool Nat :=
  { actives := [{ oid := { val := 1, ref := 1 }, fields := fun _ => some 0,
                  versionId := some { val := 2, ref := 2 } }],
    versions := [{ oid := { val := 2, ref := 2 }, fields := fun _ => some 0,
                   versionOfId := some { val := 1, ref := 1 } }],
    ctr := 3 }

/-- concrete saveVersion argument for the C1 witness: overwrite the
version the Active Document points at. -/
def dC1 : SaveData Bool Nat :=
  { data := fun _ => some 7, snapshot := fun _ => none, toObjectTag := none,
    versionId := some { val := 2, ref := 4 }, versionOfId := some { val := 1, ref := 5 } }

/-- concrete store for the C8 witness. -/
def sC8 : Store Bool Nat :=
  { actives := [{ oid := { val := 1, ref := 1 }, fields := fun _ => some 0,
                  versionId := some { val := 2, ref := 2 } }],
    versions := [{ oid := { val := 2, ref := 2 }, fields := fun _ => some 0,
                   versionOfId := some { val := 1, ref := 1 } }],
    ctr := 3 }

/-- concrete saveVersion argument for the C8 witness: the data carries
one domain field update and the token of the active version. -/
def dC8 : SaveData Bool Nat :=
  { data := fun f => if f then some 7 else none, snapshot := fun _ => none, toObjectTag := none,
    versionId := some { val := 2, ref := 4 }, versionOfId := some { val := 1, ref := 5 } }

/-- concrete store for the C4 counterexample: the Active Document with
id value 1 already exists and its `versionId` targets the stored
Version Record with id value 2. -/
def sC4 : Store Bool Nat :=
  { actives := [{ oid := { val := 1, ref := 1 }, fields := fun _ => some 0,
                  versionId := some { val := 2, ref := 2 } }],
    versions := [{ oid := { val := 2, ref := 2 }, fields := fun _ => some 0,
                   versionOfId := some { val := 1, ref := 1 } }],
    ctr := 3 }

/-- concrete saveVersion argument for the C4 counterexample: it edits
the active version of the existing document; the caller-held ids are
distinct ObjectId instances (reference tags 4 and 8) from the stored
ones. -/
def dC4 : SaveData Bool Nat :=
  { data := fun _ => some 7, snapshot := fun _ => none, toObjectTag := none,
    versionId := some { val := 2, ref := 4 }, versionOfId := some { val := 1, ref := 8 } }

/-- concrete store for the C4 amended-claim witness. -/
def sC4w : Store Bool Nat :=
  { actives := [{ oid := { val := 1, ref := 1 }, fields := fun _ => some 0,
                  versionId := some { val := 2, ref := 2 } }],
    versions := [{ oid := { val := 2, ref := 2 }, fields := fun _ => some 0,
                   versionOfId := some { val := 1, ref := 1 } }],
    ctr := 3 }

/-- concrete saveVersion argument for the C4 amended-claim witness. -/
def dC4w : SaveData Bool Nat :=
  { data := fun _ => some 7, snapshot := fun _ => none, toObjectTag := none,
    versionId := some { val := 2, ref := 4 }, versionOfId := some { val := 1, ref := 8 } }

/-- concrete store for the C3 witness. -/
def sC3 : Store Bool Nat :=
  { actives := [{ oid := { val := 1, ref := 1 }, fields := fun _ => some 0,
                  versionId := some { val := 2, ref := 2 } }],
    versions := [{ oid := { val := 2, ref := 2 }, fields := fun _ => some 0,
                   versionOfId := some { val := 1, ref := 1 } }],
    ctr := 3 }

/-- concrete saveVersion argument for the C3 witness: a brand-new
version (`versionId` null) of the existing entity with id value 1. -/
def dC3 : SaveData Bool Nat :=
  { data := fun _ => some 7, snapshot := fun _ => none, toObjectTag := none,
    versionId := none, versionOfId := some { val := 1, ref := 1 } }

/-- concrete store for the C7 witness: the single Active Document's
current `versionId` has id value 5, not the token the caller holds. -/
def sC7 : Store Bool Nat :=
  { actives := [{ oid := { val := 1, ref := 1 }, fields := fun _ => some 0,
                  versionId := some { val := 5, ref := 5 } }],
    versions := [],
    ctr := 6 }

/-- concrete upsertVersion argument for the C7 witness: an existing
document id with a stale version token (id value 2). -/
def dC7 : UpsertData Bool Nat :=
  { docId := some { val := 1, ref := 9 }, versionId := some { val := 2, ref := 9 },
    fields := fun _ => some 1 }

/-- concrete store for the C9 failing input: one Active Document whose
active Version Record (id value 2) exists in the shadow collection. -/
def sC9 : Store Nat Nat :=
  { actives := [{ oid := { val := 1, ref := 1 }, fields := fun _ => some 0,
                  versionId := some { val := 2, ref := 2 } }],
    versions := [{ oid := { val := 2, ref := 2 }, fields := fun _ => some 0,
                   versionOfId := some { val := 1, ref := 1 } }],
    ctr := 3 }

/-! helper lemmas about list lookups and the embedding -/

theorem mvFindAppend {α : Type} (l1 l2 : List α) (p : α → Bool) (h : l1.find? p = none) :
    (l1 ++ l2).find? p = l2.find? p := by
  induction l1 with
  | nil => rfl
  | cons x xs ih =>
      rw [List.find?_cons] at h
      cases hx : p x with
      | true => rw [hx] at h; exact absurd h (by simp)
      | false =>
          rw [hx] at h
          rw [List.cons_append, List.find?_cons, hx]
          exact ih h

theorem mvFindMapUpdate {α : Type} (l : List α) (p p2 q : α → Bool) (A B : α)
    (h : l.find? p = some A)
    (hqp : ∀ x ∈ l, q x = true → p x = true)
    (hp2p : ∀ x ∈ l, p2 x = true → p x = true)
    (hqA : q A = true) (hp2B : p2 B = true) :
    (l.map (fun x => if q x then B else x)).find? p2 = some B := by
  induction l with
  | nil => exact absurd h (by simp)
  | cons x xs ih =>
      rw [List.find?_cons] at h
      cases hx : p x with
      | true =>
          rw [hx] at h
          have hxA : x = A := by simpa using h
          subst hxA
          simp only [List.map_cons]
          have hfA : (if q x = true then B else x) = B := by simp [hqA]
          rw [hfA]
          exact List.find?_cons_of_pos _ hp2B
      | false =>
          rw [hx] at h
          have hqx : q x = false := by
            cases hq : q x with
            | false => rfl
            | true => rw [hqp x (List.mem_cons_self x xs) hq] at hx; exact absurd hx (by simp)
          have hp2x : p2 x = false := by
            cases hp2 : p2 x with
            | false => rfl
            | true => rw [hp2p x (List.mem_cons_self x xs) hp2] at hx; exact absurd hx (by simp)
          simp only [List.map_cons]
          have hfx : (if q x = true then B else x) = x := by simp [hqx]
          rw [hfx, List.find?_cons_of_neg _ (by simp [hp2x])]
          exact ih h (fun y hy => hqp y (List.mem_cons_of_mem x hy))
            (fun y hy => hp2p y (List.mem_cons_of_mem x hy))

theorem mvMapIfNot {α : Type} (l : List α) (q : α → Bool) (B : α)
    (h : ∀ x ∈ l, q x = false) :
    l.map (fun x => if q x then B else x) = l := by
  induction l with
  | nil => rfl
  | cons x xs ih =>
      simp only [List.map_cons]
      have hfx : (if q x = true then B else x) = x := by simp [h x (List.mem_cons_self x xs)]
      rw [hfx, ih (fun y hy => h y (List.mem_cons_of_mem x hy))]

theorem mvFindFilterNone {α : Type} (l : List α) (keep p : α → Bool)
    (h : ∀ x ∈ l, keep x = true → p x = false) :
    (l.filter keep).find? p = none := by
  rw [List.find?_eq_none]
  intro x hx
  have hm := List.mem_filter.mp hx
  simp [h x hm.1 hm.2]

theorem saveDataEffective_eq {F V : Type} (d : SaveData F V) :
    saveDataEffective d = d.data := by
  unfold saveDataEffective toObjectGuard jsStrictEq dataToObjectVal
  cases d.toObjectTag <;> rfl

theorem toObjectGuard_eq_false {F V : Type} (d : SaveData F V) :
    toObjectGuard d = false := by
  unfold toObjectGuard jsStrictEq dataToObjectVal
  cases d.toObjectTag <;> rfl

theorem storeAfterVersionSave_actives {F V : Type} (s : Store F V) (d : SaveData F V) :
    (storeAfterVersionSave s d).actives = s.actives := by
  unfold storeAfterVersionSave
  cases findVersionOpt s d.versionId <;> rfl

theorem updateVersion_actives {F V : Type} (s : Store F V) (vd : VersionDoc F V) :
    (updateVersion s vd).actives = s.actives := rfl

theorem savedVersion_mem {F V : Type} (s : Store F V) (d : SaveData F V) :
    savedVersion s d ∈ (storeAfterVersionSave s d).versions := by
  unfold storeAfterVersionSave
  cases hv : findVersionOpt s d.versionId with
  | none => simp
  | some v =>
      have hmem : v ∈ s.versions := by
        cases hvid : d.versionId with
        | none => rw [hvid] at hv; exact absurd hv (by simp [findVersionOpt])
        | some x =>
            rw [hvid] at hv
            exact List.mem_of_find?_eq_some hv
      have hoid : (savedVersion s d).oid = v.oid := by
        unfold savedVersion; rw [hv]
      show savedVersion s d ∈ (updateVersion s (savedVersion s d)).versions
      unfold updateVersion
      refine List.mem_map.mpr ⟨v, hmem, ?_⟩
      simp [hoid]

/-- Claim C10: in saveVersion of src/index.js the branch converting a
store-document input to a plain object before copying is unreachable:
the guard compares the string literal "function" against the value of
`data.toObject` (a bound function for a store document, `undefined` for
a plain object) with strict equality, which is false for every such
value, so the data actually copied is always the raw input and a model
instance is never snapshotted via `toObject`. -/
theorem c10_toObject_guard_unreachable {F V : Type} (d : SaveData F V) :
    toObjectGuard d = false ∧ saveDataEffective d = d.data :=
  ⟨toObjectGuard_eq_false d, saveDataEffective_eq d⟩

/-- Claim C6: applying the plugin fails at load time exactly when the
configured `versionId` link-field name is already declared among the
primary schema's paths, or the configured `versionOfId` name is already
present among the mirrored (non-identifier) shadow fields; on success
every declared field except the primary identifier is copied to the
shadow shape, `versionOfId` is appended to the shadow shape and
`versionId` to the primary shape. -/
theorem c6_setupSchemas_spec {O : Type} (paths : List (String × O)) (oidOpts : O)
    (vIdP vOfP : String) :
    match setupSchemas paths oidOpts vIdP vOfP with
    | Except.error _ =>
        ((paths.filter (fun kv => kv.1 != "_id")).find? (fun kv => kv.1 == vOfP)).isSome = true ∨
        (paths.find? (fun kv => kv.1 == vIdP)).isSome = true
    | Except.ok out =>
        ((paths.filter (fun kv => kv.1 != "_id")).find? (fun kv => kv.1 == vOfP)).isSome = false ∧
        (paths.find? (fun kv => kv.1 == vIdP)).isSome = false ∧
        out.1 = paths ++ [(vIdP, oidOpts)] ∧
        out.2 = paths.filter (fun kv => kv.1 != "_id") ++ [(vOfP, oidOpts)] := by
  cases h1 : (paths.filter (fun kv => kv.1 != "_id")).find? (fun kv => kv.1 == vOfP) with
  | some kv =>
      simp only [setupSchemas, h1]
      exact Or.inl rfl
  | none =>
      cases h2 : paths.find? (fun kv => kv.1 == vIdP) with
      | some kv2 =>
          simp only [setupSchemas, h1, h2]
          exact Or.inr rfl
      | none =>
          simp only [setupSchemas, h1, h2]
          refine ⟨?_, ?_, ?_, ?_⟩ <;> simp

/-- Claim C2: deleteVersion never removes a Version Record referenced by
some Active Document's `versionId` and returns success false there; with
no referencing Active Document it returns success false when the record
is absent, and otherwise deletes the record and returns success true. -/
theorem c2_deleteVersion_spec {F V : Type} (s : Store F V) (i : OId) :
    ((∃ a ∈ s.actives, optValEq a.versionId i = true) →
       (deleteVersionModel s i).2 = false ∧ (deleteVersionModel s i).1 = s) ∧
    ((∀ a ∈ s.actives, optValEq a.versionId i = false) →
       (findVersion s i = none →
          (deleteVersionModel s i).2 = false ∧ (deleteVersionModel s i).1 = s) ∧
       (∀ v, findVersion s i = some v →
          (deleteVersionModel s i).2 = true ∧
          (deleteVersionModel s i).1.actives = s.actives ∧
          (deleteVersionModel s i).1.versions =
            s.versions.filter (fun x => !(x.oid.val == v.oid.val)) ∧
          findVersion (deleteVersionModel s i).1 i = none)) := by
  constructor
  · rintro ⟨a, ha, hai⟩
    have hsome : (s.actives.find? (fun a => optValEq a.versionId i)).isSome :=
      List.find?_isSome.mpr ⟨a, ha, hai⟩
    obtain ⟨b, hb⟩ := Option.isSome_iff_exists.mp hsome
    have h0 : deleteVersionModel s i = (s, false) := by
      simp only [deleteVersionModel, hb]
    rw [h0]
    exact ⟨rfl, rfl⟩
  · intro hall
    have hnone : s.actives.find? (fun a => optValEq a.versionId i) = none :=
      List.find?_eq_none.mpr (fun x hx => by simp [hall x hx])
    constructor
    · intro hv
      have h0 : deleteVersionModel s i = (s, false) := by
        simp only [deleteVersionModel, hnone, hv]
      rw [h0]
      exact ⟨rfl, rfl⟩
    · intro v hv
      have h0 : deleteVersionModel s i =
          ({ s with versions := s.versions.filter (fun x => !(x.oid.val == v.oid.val)) },
           true) := by
        simp only [deleteVersionModel, hnone, hv]
      rw [h0]
      refine ⟨rfl, rfl, rfl, ?_⟩
      have hvi : v.oid.val = i.val := by
        have := List.find?_some hv
        simpa [findVersion, oidValEq] using this
      unfold findVersion
      apply mvFindFilterNone
      intro x _ hkeep
      have hx' : x.oid.val ≠ v.oid.val := by simpa using hkeep
      simp only [oidValEq, beq_eq_false_iff_ne, ne_eq]
      rw [← hvi]
      exact hx'

/-- closed witness for C2: deleting the version referenced as active is
refused and leaves the store untouched. -/
theorem c2_deleteVersion_witness :
    (deleteVersionModel sC2 { val := 2, ref := 7 }).2 = false ∧
    (deleteVersionModel sC2 { val := 2, ref := 7 }).1 = sC2 :=
  (c2_deleteVersion_spec sC2 { val := 2, ref := 7 }).1
    ⟨{ oid := { val := 1, ref := 1 }, fields := fun _ => some 0,
       versionId := some { val := 2, ref := 2 } },
     List.mem_cons_self _ _, rfl⟩

/-- Claim C5: activateVersion returns a failure result when the Version
Record is absent, a failure result when the Active Document behind its
`versionOfId` is absent, and otherwise copies every field except the
identifier and the back-reference from the Version Record onto the
Active Document, sets the Active Document's `versionId` to the given id,
persists it, and returns the saved Active Document. -/
theorem c5_activateVersion_spec {F V : Type} (s : Store F V) (i : OId) :
    (findVersion s i = none → activateVersionModel s i = (s, ActResult.fail)) ∧
    (∀ ver, findVersion s i = some ver →
       (findActiveOpt s ver.versionOfId = none →
          activateVersionModel s i = (s, ActResult.fail)) ∧
       (∀ a, findActiveOpt s ver.versionOfId = some a →
          ∃ s2 a2, activateVersionModel s i = (s2, ActResult.ok a2) ∧
            a2.oid = a.oid ∧
            a2.versionId = some i ∧
            (∀ f, a2.fields f = mergeFields ver.fields a.fields f) ∧
            findActive s2 a.oid = some a2 ∧
            s2.versions = s.versions)) := by
  constructor
  · intro hv
    simp [activateVersionModel, hv]
  · intro ver hver
    constructor
    · intro hact
      simp [activateVersionModel, hver, hact]
    · intro a hact
      cases hvo : ver.versionOfId with
      | none => rw [hvo] at hact; exact absurd hact (by simp [findActiveOpt])
      | some e =>
        rw [hvo] at hact
        have hact' : findActive s e = some a := hact
        have hae : a.oid.val = e.val := by
          have := List.find?_some hact'
          simpa [findActive, oidValEq] using this
        have hmodel : activateVersionModel s i =
            ({ s with actives := s.actives.map (fun x =>
                 if x.oid.val == a.oid.val then
                   { a with fields := mergeFields ver.fields a.fields, versionId := some i }
                 else x) },
             ActResult.ok
               { a with fields := mergeFields ver.fields a.fields, versionId := some i }) := by
          simp only [activateVersionModel, findActiveOpt, hver, hvo, hact']
        refine ⟨_, _, hmodel, rfl, rfl, fun f => rfl, ?_, rfl⟩
        unfold findActive
        refine mvFindMapUpdate _ _ _ _ a _ hact' ?_ ?_ ?_ ?_
        · intro x _ hq
          have hxa : x.oid.val = a.oid.val := by simpa using hq
          simp [oidValEq, hxa, hae]
        · intro x _ hq
          have hxa : x.oid.val = a.oid.val := by simpa [oidValEq] using hq
          simp [oidValEq, hxa, hae]
        · simp
        · simp [oidValEq]

/-- closed witness for C5: activating the non-active version of the
concrete store promotes its fields and repoints `versionId`. -/
theorem c5_activateVersion_witness :
    (match activateVersionModel sC5 { val := 3, ref := 9 } with
     | (_, ActResult.ok a2) =>
         a2.versionId = some { val := 3, ref := 9 } ∧ a2.fields true = some 9
     | (_, ActResult.fail) => False) := by
  obtain ⟨s2, a2, hact, hoid, hvid, hfields, -, -⟩ :=
    ((c5_activateVersion_spec sC5 { val := 3, ref := 9 }).2
      { oid := { val := 3, ref := 3 }, fields := fun f => if f then some 9 else none,
        versionOfId := some { val := 1, ref := 1 } } rfl).2
      { oid := { val := 1, ref := 1 }, fields := fun _ => some 0,
        versionId := some { val := 2, ref := 2 } } rfl
  rw [hact]
  dsimp only
  exact ⟨hvid, (hfields true).trans rfl⟩

theorem savedVersion_versionOfId {F V : Type} (s : Store F V) (d : SaveData F V) :
    (savedVersion s d).versionOfId = d.versionOfId := by
  unfold savedVersion
  cases findVersionOpt s d.versionId <;> rfl

theorem savedVersion_fields_of_data {F V : Type} (s : Store F V) (d : SaveData F V)
    (f : F) (b : V) (h : d.data f = some b) :
    (savedVersion s d).fields f = some b := by
  unfold savedVersion
  cases findVersionOpt s d.versionId <;>
    simp [mergeFields, saveDataEffective_eq, h]

theorem findActiveOpt_afterVersionSave {F V : Type} (s : Store F V) (d : SaveData F V)
    (e : OId) (A : ActiveDoc F V)
    (hvo : d.versionOfId = some e) (hA : findActive s e = some A) :
    findActiveOpt (storeAfterVersionSave s d) d.versionOfId = some A := by
  rw [hvo]
  show findActive (storeAfterVersionSave s d) e = some A
  unfold findActive
  rw [storeAfterVersionSave_actives]
  exact hA

theorem findActive_after_promote {F V : Type} (s : Store F V) (e : OId)
    (A A2 : ActiveDoc F V) (hA : findActive s e = some A) (h2 : A2.oid.val = A.oid.val) :
    (s.actives.map (fun x => if x.oid.val == A.oid.val then A2 else x)).find?
      (fun x => oidValEq x.oid e) = some A2 := by
  have hAe : A.oid.val = e.val := by
    have := List.find?_some hA
    simpa [findActive, oidValEq] using this
  have hA' : s.actives.find? (fun a => oidValEq a.oid e) = some A := hA
  refine mvFindMapUpdate _ _ _ _ A _ hA' ?_ ?_ ?_ ?_
  · intro x _ hq
    have hxa : x.oid.val = A.oid.val := by simpa using hq
    simp [oidValEq, hxa, hAe]
  · exact fun x _ h => h
  · simp
  · simp [oidValEq, h2, hAe]

theorem saveVersion_nopromo_run {F V : Type} (s : Store F V) (d : SaveData F V)
    (e : OId) (A : ActiveDoc F V) (w : OId)
    (hvo : d.versionOfId = some e) (hA : findActive s e = some A) (hw : A.versionId = some w)
    (hcmp : w.val ≠ (savedVersion s d).oid.val) :
    saveVersionModel s d = Except.ok (storeAfterVersionSave s d, some (savedVersion s d)) := by
  have hA1 := findActiveOpt_afterVersionSave s d e A hvo hA
  have hbne : oidValEq w (savedVersion s d).oid = false := by
    simp only [oidValEq, beq_eq_false_iff_ne, ne_eq]
    exact hcmp
  simp only [saveVersionModel, hA1, hw, hbne]

theorem saveVersion_promo_run {F V : Type} (s : Store F V) (d : SaveData F V)
    (e : OId) (A : ActiveDoc F V) (w : OId)
    (hvo : d.versionOfId = some e) (hA : findActive s e = some A) (hw : A.versionId = some w)
    (hcmp : w.val = (savedVersion s d).oid.val) :
    (optRefEq d.versionOfId A.oid = true →
       saveVersionModel s d = Except.ok
         ({ storeAfterVersionSave s d with
            actives := (storeAfterVersionSave s d).actives.map
              (fun x => if x.oid.val == A.oid.val then
                 { A with fields := mergeFields (savedVersion s d).fields A.fields } else x) },
          none)) ∧
    (optRefEq d.versionOfId A.oid = false →
       saveVersionModel s d = Except.ok
         (updateVersion
            { storeAfterVersionSave s d with
              actives := (storeAfterVersionSave s d).actives.map
                (fun x => if x.oid.val == A.oid.val then
                   { A with fields := mergeFields (savedVersion s d).fields A.fields } else x) }
            { savedVersion s d with versionOfId := some A.oid },
          some { savedVersion s d with versionOfId := some A.oid })) := by
  have hA1 := findActiveOpt_afterVersionSave s d e A hvo hA
  have hbeq : oidValEq w (savedVersion s d).oid = true := by
    simp [oidValEq, hcmp]
  constructor
  · intro href
    have href2 : optRefEq (savedVersion s d).versionOfId
        ({ A with fields := mergeFields (savedVersion s d).fields A.fields } :
          ActiveDoc F V).oid = true := by
      rw [savedVersion_versionOfId]; exact href
    simp only [saveVersionModel, hA1, hw, hbeq, href2]
  · intro href
    have href2 : optRefEq (savedVersion s d).versionOfId
        ({ A with fields := mergeFields (savedVersion s d).fields A.fields } :
          ActiveDoc F V).oid = false := by
      rw [savedVersion_versionOfId]; exact href
    simp only [saveVersionModel, hA1, hw, hbeq, href2]

/-- Claim C1: for a saveVersion call that resolves an existing Active
Document, promotion happens if and only if the Active Document's
current `versionId` equals (by id value, the `toString` comparison) the
id of the Version Record just saved: on equality all domain fields of
the saved record are copied onto the Active Document and it is
persisted; on inequality the primary collection is left completely
unchanged and the caller receives the saved Version Record without
promotion. -/
theorem c1_saveVersion_promotion_iff {F V : Type} (s : Store F V) (d : SaveData F V)
    (e : OId) (A : ActiveDoc F V) (w : OId)
    (hvo : d.versionOfId = some e)
    (hA : findActive s e = some A)
    (hw : A.versionId = some w) :
    ∃ s2 res, saveVersionModel s d = Except.ok (s2, res) ∧
      (w.val = (savedVersion s d).oid.val →
         ∃ A2, findActive s2 e = some A2 ∧ A2.oid = A.oid ∧
           (∀ f, A2.fields f = mergeFields (savedVersion s d).fields A.fields f)) ∧
      (w.val ≠ (savedVersion s d).oid.val →
         s2.actives = s.actives ∧ res = some (savedVersion s d)) := by
  by_cases hcmp : w.val = (savedVersion s d).oid.val
  · cases href : optRefEq d.versionOfId A.oid with
    | true =>
        have hrun := (saveVersion_promo_run s d e A w hvo hA hw hcmp).1 href
        refine ⟨_, _, hrun, ?_, ?_⟩
        · intro _
          refine ⟨{ A with fields := mergeFields (savedVersion s d).fields A.fields },
                  ?_, rfl, fun f => rfl⟩
          show ((storeAfterVersionSave s d).actives.map
              (fun x => if x.oid.val == A.oid.val then
                 { A with fields := mergeFields (savedVersion s d).fields A.fields }
               else x)).find? (fun x => oidValEq x.oid e) =
            some { A with fields := mergeFields (savedVersion s d).fields A.fields }
          rw [storeAfterVersionSave_actives]
          exact findActive_after_promote s e A _ hA rfl
        · intro hne; exact absurd hcmp hne
    | false =>
        have hrun := (saveVersion_promo_run s d e A w hvo hA hw hcmp).2 href
        refine ⟨_, _, hrun, ?_, ?_⟩
        · intro _
          refine ⟨{ A with fields := mergeFields (savedVersion s d).fields A.fields },
                  ?_, rfl, fun f => rfl⟩
          show ((storeAfterVersionSave s d).actives.map
              (fun x => if x.oid.val == A.oid.val then
                 { A with fields := mergeFields (savedVersion s d).fields A.fields }
               else x)).find? (fun x => oidValEq x.oid e) =
            some { A with fields := mergeFields (savedVersion s d).fields A.fields }
          rw [storeAfterVersionSave_actives]
          exact findActive_after_promote s e A _ hA rfl
        · intro hne; exact absurd hcmp hne
  · have hrun := saveVersion_nopromo_run s d e A w hvo hA hw hcmp
    refine ⟨_, _, hrun, ?_, ?_⟩
    · intro heq; exact absurd heq hcmp
    · intro _
      exact ⟨storeAfterVersionSave_actives s d, rfl⟩

/-- closed witness for C1: saving onto the active version of the
concrete store succeeds and the promoted Active Document carries the
new field value. -/
theorem c1_saveVersion_witness :
    (match saveVersionModel sC1 dC1 with
     | Except.ok (s2, _) =>
         (match findActive s2 { val := 1, ref := 5 } with
          | some A2 => A2.fields true = some 7
          | none => False)
     | Except.error _ => False) := by
  obtain ⟨s2, res, hrun, hpromo, -⟩ :=
    c1_saveVersion_promotion_iff sC1 dC1 { val := 1, ref := 5 }
      { oid := { val := 1, ref := 1 }, fields := fun _ => some 0,
        versionId := some { val := 2, ref := 2 } }
      { val := 2, ref := 2 } rfl rfl rfl
  obtain ⟨A2, hfind, -, hfields⟩ := hpromo rfl
  rw [hrun]
  dsimp only
  rw [hfind]
  exact (hfields true).trans rfl

/-- Claim C8: when saveVersion targets the version that is active
(`versionId` token matches), the Active Document's domain fields are
updated from the data while its `versionId` pointer is unchanged — the
promoting copy excludes the identifier and the back-reference, and the
shadow document carries no `versionId` key at all. -/
theorem c8_saveVersion_preserves_pointer {F V : Type} (s : Store F V) (d : SaveData F V)
    (e : OId) (A : ActiveDoc F V) (w : OId)
    (hvo : d.versionOfId = some e)
    (hA : findActive s e = some A)
    (hw : A.versionId = some w)
    (hcmp : w.val = (savedVersion s d).oid.val) :
    ∃ s2 res, saveVersionModel s d = Except.ok (s2, res) ∧
      ∃ A2, findActive s2 e = some A2 ∧
        A2.oid = A.oid ∧
        A2.versionId = A.versionId ∧
        (∀ f b, d.data f = some b → A2.fields f = some b) := by
  cases href : optRefEq d.versionOfId A.oid with
  | true =>
      have hrun := (saveVersion_promo_run s d e A w hvo hA hw hcmp).1 href
      refine ⟨_, _, hrun,
              { A with fields := mergeFields (savedVersion s d).fields A.fields },
              ?_, rfl, rfl, ?_⟩
      · show ((storeAfterVersionSave s d).actives.map
            (fun x => if x.oid.val == A.oid.val then
               { A with fields := mergeFields (savedVersion s d).fields A.fields }
             else x)).find? (fun x => oidValEq x.oid e) =
          some { A with fields := mergeFields (savedVersion s d).fields A.fields }
        rw [storeAfterVersionSave_actives]
        exact findActive_after_promote s e A _ hA rfl
      · intro f b hfb
        show mergeFields (savedVersion s d).fields A.fields f = some b
        have hs := savedVersion_fields_of_data s d f b hfb
        simp [mergeFields, hs]
  | false =>
      have hrun := (saveVersion_promo_run s d e A w hvo hA hw hcmp).2 href
      refine ⟨_, _, hrun,
              { A with fields := mergeFields (savedVersion s d).fields A.fields },
              ?_, rfl, rfl, ?_⟩
      · show ((storeAfterVersionSave s d).actives.map
            (fun x => if x.oid.val == A.oid.val then
               { A with fields := mergeFields (savedVersion s d).fields A.fields }
             else x)).find? (fun x => oidValEq x.oid e) =
          some { A with fields := mergeFields (savedVersion s d).fields A.fields }
        rw [storeAfterVersionSave_actives]
        exact findActive_after_promote s e A _ hA rfl
      · intro f b hfb
        show mergeFields (savedVersion s d).fields A.fields f = some b
        have hs := savedVersion_fields_of_data s d f b hfb
        simp [mergeFields, hs]

/-- closed witness for C8: the concrete promoting save updates the
domain field to 7 while the active pointer keeps id value 2. -/
theorem c8_saveVersion_witness :
    (match saveVersionModel sC8 dC8 with
     | Except.ok (s2, _) =>
         (match findActive s2 { val := 1, ref := 5 } with
          | some A2 =>
              A2.versionId = some { val := 2, ref := 2 } ∧ A2.fields true = some 7
          | none => False)
     | Except.error _ => False) := by
  obtain ⟨s2, res, hrun, A2, hfind, hoid, hvid, hfields⟩ :=
    c8_saveVersion_preserves_pointer sC8 dC8 { val := 1, ref := 5 }
      { oid := { val := 1, ref := 1 }, fields := fun _ => some 0,
        versionId := some { val := 2, ref := 2 } }
      { val := 2, ref := 2 } rfl rfl rfl rfl
  rw [hrun]
  dsimp only
  rw [hfind]
  exact ⟨by rw [hvid], hfields true 7 rfl⟩

/-- Counterexample to claim C4 as stated: on this concrete input the
Active Document with id value 1 already exists (no brand-new lineage),
the saved Version Record targets the active version, and the code still
re-saves the Version Record — its stored `versionOfId` ends up being
the Active Document's `_id` instance (reference tag 1) although the
caller supplied a distinct instance (reference tag 8) — because the
guard on index.js line 334 is JavaScript strict (reference) equality,
which fails for distinct ObjectId instances even with equal values. -/
theorem c4_resave_counterexample :
    (findActive sC4 { val := 1, ref := 8 }).isSome = true ∧
    ∃ s2 r, saveVersionModel sC4 dC4 = Except.ok (s2, some r) ∧
      r.versionOfId = some { val := 1, ref := 1 } ∧
      dC4.versionOfId = some { val := 1, ref := 8 } ∧
      s2.versions.map (fun v => v.versionOfId) = [some { val := 1, ref := 1 }] ∧
      s2.actives.map (fun a => a.oid) = [{ val := 1, ref := 1 }] := by
  exact ⟨rfl, _, _, rfl, rfl, rfl, rfl, rfl⟩

/-- Claim C4 (amended): for every saveVersion call resolving an existing
Active Document, the re-save of the Version Record with `versionOfId`
set to the Active Document's id happens exactly when the promotion
branch ran and the Version Record's `versionOfId` is not strictly
(reference-)equal to the persisted Active Document's id — so also for
existing lineages, not only brand-new ones; the caller then receives
the re-saved record as persisted, receives the step-2 record as
persisted when no promotion occurred, and receives no document at all
when promotion occurred but the references coincide. -/
theorem c4_resave_amended {F V : Type} (s : Store F V) (d : SaveData F V)
    (e : OId) (A : ActiveDoc F V) (w : OId)
    (hvo : d.versionOfId = some e)
    (hA : findActive s e = some A)
    (hw : A.versionId = some w) :
    ∃ s2 res, saveVersionModel s d = Except.ok (s2, res) ∧
      (w.val ≠ (savedVersion s d).oid.val →
         res = some (savedVersion s d) ∧
         (savedVersion s d).versionOfId = d.versionOfId ∧
         savedVersion s d ∈ s2.versions) ∧
      (w.val = (savedVersion s d).oid.val → optRefEq d.versionOfId A.oid = false →
         ∃ r, res = some r ∧ r.oid = (savedVersion s d).oid ∧
           r.versionOfId = some A.oid ∧ r ∈ s2.versions) ∧
      (w.val = (savedVersion s d).oid.val → optRefEq d.versionOfId A.oid = true →
         res = none) := by
  by_cases hcmp : w.val = (savedVersion s d).oid.val
  · cases href : optRefEq d.versionOfId A.oid with
    | true =>
        have hrun := (saveVersion_promo_run s d e A w hvo hA hw hcmp).1 href
        refine ⟨_, _, hrun, ?_, ?_, ?_⟩
        · intro hne; exact absurd hcmp hne
        · intro _ hf; exact absurd hf (by simp)
        · intro _ _; rfl
    | false =>
        have hrun := (saveVersion_promo_run s d e A w hvo hA hw hcmp).2 href
        refine ⟨_, _, hrun, ?_, ?_, ?_⟩
        · intro hne; exact absurd hcmp hne
        · intro _ _
          refine ⟨{ savedVersion s d with versionOfId := some A.oid }, rfl, rfl, rfl, ?_⟩
          show { savedVersion s d with versionOfId := some A.oid } ∈
            (updateVersion _ { savedVersion s d with versionOfId := some A.oid }).versions
          unfold updateVersion
          refine List.mem_map.mpr ⟨savedVersion s d, ?_, by simp⟩
          show savedVersion s d ∈
            ({ storeAfterVersionSave s d with
               actives := (storeAfterVersionSave s d).actives.map
                 (fun x => if x.oid.val == A.oid.val then
                    { A with fields := mergeFields (savedVersion s d).fields A.fields }
                  else x) } : Store F V).versions
          exact savedVersion_mem s d
        · intro _ ht; exact absurd ht (by simp)
  · have hrun := saveVersion_nopromo_run s d e A w hvo hA hw hcmp
    refine ⟨_, _, hrun, ?_, ?_, ?_⟩
    · intro _
      exact ⟨rfl, savedVersion_versionOfId s d, savedVersion_mem s d⟩
    · intro heq; exact absurd heq hcmp
    · intro heq; exact absurd heq hcmp

/-- closed witness for the amended C4: on the concrete promoting input
the caller receives the re-saved record whose `versionOfId` now holds
the stored Active Document's id instance. -/
theorem c4_resave_amended_witness :
    (match saveVersionModel sC4w dC4w with
     | Except.ok (_, some r) => r.versionOfId = some { val := 1, ref := 1 }
     | _ => False) := by
  obtain ⟨s2, res, hrun, -, hmid, -⟩ :=
    c4_resave_amended sC4w dC4w { val := 1, ref := 8 }
      { oid := { val := 1, ref := 1 }, fields := fun _ => some 0,
        versionId := some { val := 2, ref := 2 } }
      { val := 2, ref := 2 } rfl rfl rfl
  obtain ⟨r, hres, hroid, hrof, hmem⟩ := hmid rfl rfl
  rw [hres] at hrun
  rw [hrun]
  dsimp only
  exact hrof

theorem savedVersion_new {F V : Type} (s : Store F V) (d : SaveData F V)
    (hvid : d.versionId = none) :
    savedVersion s d =
      { oid := { val := s.ctr, ref := s.ctr },
        fields := saveDataEffective d,
        versionOfId := d.versionOfId } := by
  unfold savedVersion
  rw [hvid]
  rfl

theorem storeAfterVersionSave_new {F V : Type} (s : Store F V) (d : SaveData F V)
    (hvid : d.versionId = none) :
    storeAfterVersionSave s d =
      { s with versions := s.versions ++ [savedVersion s d], ctr := s.ctr + 1 } := by
  unfold storeAfterVersionSave
  rw [hvid]
  rfl

theorem mvFilterAppendFresh {F V : Type} (l : List (VersionDoc F V)) (n : Nat)
    (vs : VersionDoc F V) (hwf : ∀ v ∈ l, v.oid.val < n) (hv : vs.oid.val = n) :
    (l ++ [vs]).filter (fun v => !(v.oid.val == n)) = l := by
  rw [List.filter_append]
  have h1 : [vs].filter (fun v => !(v.oid.val == n)) = [] := by simp [hv]
  have h2 : l.filter (fun v => !(v.oid.val == n)) = l := by
    apply List.filter_eq_self.mpr
    intro v hvm
    have := hwf v hvm
    simp
    omega
  rw [h1, h2, List.append_nil]

theorem activate_run {F V : Type} (s : Store F V) (i : OId) (ver : VersionDoc F V)
    (a : ActiveDoc F V)
    (hfv : findVersion s i = some ver)
    (hfa : findActiveOpt s ver.versionOfId = some a) :
    activateVersionModel s i =
      ({ s with actives := s.actives.map (fun x =>
           if x.oid.val == a.oid.val then
             { a with fields := mergeFields ver.fields a.fields, versionId := some i }
           else x) },
       ActResult.ok { a with fields := mergeFields ver.fields a.fields, versionId := some i }) := by
  simp only [activateVersionModel, hfv, hfa]

theorem saveVersion_newdoc_run {F V : Type} (s : Store F V) (d : SaveData F V)
    (hnew : findActiveOpt (storeAfterVersionSave s d) d.versionOfId = none)
    (hrefne : optRefEq d.versionOfId
        { val := (storeAfterVersionSave s d).ctr,
          ref := (storeAfterVersionSave s d).ctr } = false) :
    saveVersionModel s d =
      Except.ok (newLineageStore s d, some (newLineageVersion s d)) := by
  have hself : oidValEq (savedVersion s d).oid (savedVersion s d).oid = true := by
    simp [oidValEq]
  have hrefne2 : optRefEq (savedVersion s d).versionOfId
      { val := (storeAfterVersionSave s d).ctr,
        ref := (storeAfterVersionSave s d).ctr } = false := by
    rw [savedVersion_versionOfId]
    exact hrefne
  simp only [saveVersionModel, hnew, hself, hrefne2, newLineageStore, newLineageVersion,
    newLineageActive]

/-- Claim C3: for every entity id and data object, saving a brand-new
version (`versionId` null) and then activating the returned record
yields an Active Document whose domain fields equal the data, both when
the entity already has an Active Document and when the save creates the
lineage. -/
theorem c3_save_then_activate_roundtrip {F V : Type} (s : Store F V) (d : SaveData F V)
    (e : OId)
    (hwf : storeWF s)
    (hvid : d.versionId = none)
    (hvo : d.versionOfId = some e)
    (heref : e.ref < s.ctr)
    (htot : ∀ f, (d.data f).isSome = true) :
    ∃ s1 vres, saveVersionModel s d = Except.ok (s1, some vres) ∧
      ∃ s2 a2, activateVersionModel s1 vres.oid = (s2, ActResult.ok a2) ∧
        ∀ f, a2.fields f = d.data f := by
  have hsvval : (savedVersion s d).oid.val = s.ctr := by
    rw [savedVersion_new s d hvid]
  cases hAe : findActive s e with
  | some A =>
      have hmemA : A ∈ s.actives := List.mem_of_find?_eq_some hAe
      obtain ⟨hAlt, hAopt⟩ := hwf.1 A hmemA
      cases hwA : A.versionId with
      | none => rw [hwA] at hAopt; simp [optValLt] at hAopt
      | some w =>
        rw [hwA] at hAopt
        have hwlt : w.val < s.ctr := by simpa [optValLt] using hAopt
        have hcmp : w.val ≠ (savedVersion s d).oid.val := by rw [hsvval]; omega
        have hrun := saveVersion_nopromo_run s d e A w hvo hAe hwA hcmp
        refine ⟨_, _, hrun, ?_⟩
        have hv2 : (storeAfterVersionSave s d).versions =
            s.versions ++ [savedVersion s d] := by
          rw [storeAfterVersionSave_new s d hvid]
        have hfv : findVersion (storeAfterVersionSave s d) (savedVersion s d).oid =
            some (savedVersion s d) := by
          unfold findVersion
          rw [hv2]
          rw [mvFindAppend]
          · exact List.find?_cons_of_pos _ (by simp [oidValEq])
          · apply List.find?_eq_none.mpr
            intro v hv
            have hlt := hwf.2 v hv
            simp [oidValEq, hsvval]
            omega
        have hfa : findActiveOpt (storeAfterVersionSave s d)
            (savedVersion s d).versionOfId = some A := by
          rw [savedVersion_versionOfId, hvo]
          show findActive (storeAfterVersionSave s d) e = some A
          unfold findActive
          rw [storeAfterVersionSave_actives]
          exact hAe
        have hact := activate_run (storeAfterVersionSave s d) (savedVersion s d).oid
          (savedVersion s d) A hfv hfa
        refine ⟨_, _, hact, fun f => ?_⟩
        show mergeFields (savedVersion s d).fields A.fields f = d.data f
        cases hdf : d.data f with
        | none =>
            have hts := htot f
            rw [hdf] at hts
            simp at hts
        | some b =>
            have hs := savedVersion_fields_of_data s d f b hdf
            simp [mergeFields, hs]
  | none =>
      have hnew : findActiveOpt (storeAfterVersionSave s d) d.versionOfId = none := by
        rw [hvo]
        show findActive (storeAfterVersionSave s d) e = none
        unfold findActive
        rw [storeAfterVersionSave_actives]
        exact hAe
      have hctr : (storeAfterVersionSave s d).ctr = s.ctr + 1 := by
        rw [storeAfterVersionSave_new s d hvid]
      have hrefne : optRefEq d.versionOfId
          { val := (storeAfterVersionSave s d).ctr,
            ref := (storeAfterVersionSave s d).ctr } = false := by
        rw [hvo]
        show oidRefEq e _ = false
        unfold oidRefEq
        simp [hctr]
        omega
      have hrun := saveVersion_newdoc_run s d hnew hrefne
      refine ⟨_, _, hrun, ?_⟩
      have hnlvoid : (newLineageVersion s d).oid = (savedVersion s d).oid := rfl
      have hnlaval : (newLineageActive s d).oid.val = s.ctr + 1 := hctr
      have hversions : (newLineageStore s d).versions =
          s.versions ++ [newLineageVersion s d] := by
        show ((storeAfterVersionSave s d).versions.map
            (fun v => if v.oid.val == (newLineageVersion s d).oid.val
              then newLineageVersion s d else v)) =
          s.versions ++ [newLineageVersion s d]
        have hv2 : (storeAfterVersionSave s d).versions =
            s.versions ++ [savedVersion s d] := by
          rw [storeAfterVersionSave_new s d hvid]
        rw [hv2, List.map_append]
        congr 1
        · apply mvMapIfNot
          intro v hv
          have hlt := hwf.2 v hv
          have hnv : (newLineageVersion s d).oid.val = s.ctr := by
            rw [hnlvoid, hsvval]
          simp [hnv]
          omega
        · simp [hnlvoid]
      have hactives : (newLineageStore s d).actives =
          s.actives ++ [newLineageActive s d] := by
        show (storeAfterVersionSave s d).actives ++ [newLineageActive s d] =
          s.actives ++ [newLineageActive s d]
        rw [storeAfterVersionSave_actives]
      have hfv : findVersion (newLineageStore s d) (newLineageVersion s d).oid =
          some (newLineageVersion s d) := by
        unfold findVersion
        rw [hversions]
        rw [mvFindAppend]
        · exact List.find?_cons_of_pos _ (by simp [oidValEq])
        · apply List.find?_eq_none.mpr
          intro v hv
          have hlt := hwf.2 v hv
          have hnv : (newLineageVersion s d).oid.val = s.ctr := by
            rw [hnlvoid, hsvval]
          simp [oidValEq, hnv]
          omega
      have hfa : findActiveOpt (newLineageStore s d)
          (newLineageVersion s d).versionOfId = some (newLineageActive s d) := by
        show findActive (newLineageStore s d) (newLineageActive s d).oid =
          some (newLineageActive s d)
        unfold findActive
        rw [hactives]
        rw [mvFindAppend]
        · exact List.find?_cons_of_pos _ (by simp [oidValEq])
        · apply List.find?_eq_none.mpr
          intro a ha
          have hlt := (hwf.1 a ha).1
          simp [oidValEq, hnlaval]
          omega
      have hact := activate_run (newLineageStore s d) (newLineageVersion s d).oid
        (newLineageVersion s d) (newLineageActive s d) hfv hfa
      refine ⟨_, _, hact, fun f => ?_⟩
      show mergeFields (newLineageVersion s d).fields
        (newLineageActive s d).fields f = d.data f
      have hnvf : (newLineageVersion s d).fields f = (savedVersion s d).fields f := rfl
      cases hdf : d.data f with
      | none =>
          have hts := htot f
          rw [hdf] at hts
          simp at hts
      | some b =>
          have hs := savedVersion_fields_of_data s d f b hdf
          simp [mergeFields, hnvf, hs]

/-- closed witness for C3: round-tripping the concrete data through
saveVersion and activateVersion leaves the field value 7 on the active
document. -/
theorem c3_roundtrip_witness :
    (match saveVersionModel sC3 dC3 with
     | Except.ok (s1, some vres) =>
         (match activateVersionModel s1 vres.oid with
          | (_, ActResult.ok a2) => a2.fields true = some 7
          | (_, ActResult.fail) => False)
     | _ => False) := by
  obtain ⟨s1, vres, hrun, s2, a2, hact, hfields⟩ :=
    c3_save_then_activate_roundtrip sC3 dC3 { val := 1, ref := 1 }
      (by refine ⟨?_, ?_⟩ <;> decide) rfl rfl (by decide) (by decide)
  rw [hrun]
  dsimp only
  rw [hact]
  dsimp only
  exact (hfields true).trans rfl

/-- Claim C7: for an upsertVersion call on an existing document outside
append-only mode, when no Active Document matches both the document id
and the supplied version token, the operation fails with the stale-copy
concurrency conflict error, the speculatively created Version Record is
deleted as compensation, and the primary collection is not updated —
the resulting store differs from the initial one only in the consumed
fresh-id counter. -/
theorem c7_upsertVersion_conflict {F V : Type} (s : Store F V) (d : UpsertData F V)
    (query : Option (ActiveDoc F V → Bool)) (i t : OId)
    (hwf : storeWF s)
    (hid : d.docId = some i)
    (htok : d.versionId = some t)
    (hmiss : ∀ a ∈ s.actives, a.oid.val = i.val → optValEq a.versionId t = false) :
    upsertVersionModel false s d query =
      ({ s with ctr := s.ctr + 1 }, Except.error (UpsertErr.staleRevision d.versionId)) := by
  have hguard : (!false && d.versionId.isNone) = false := by rw [htok]; rfl
  have hfind : s.actives.find? (fun a =>
      a.oid.val == i.val && (false || optValEqOpt a.versionId d.versionId)) = none := by
    apply List.find?_eq_none.mpr
    intro x hx
    intro hcontra
    rw [htok] at hcontra
    simp only [Bool.false_or, Bool.and_eq_true] at hcontra
    obtain ⟨h1, h2⟩ := hcontra
    have h1x : x.oid.val = i.val := by simpa using h1
    have h3 := hmiss x hx h1x
    have h2x : optValEq x.versionId t = true := by
      cases hxv : x.versionId with
      | none => rw [hxv] at h2; simp [optValEqOpt] at h2
      | some w =>
          rw [hxv] at h2
          simpa [optValEqOpt, optValEq] using h2
    rw [h3] at h2x
    exact absurd h2x (by simp)
  have hfil : (s.versions ++
      [({ oid := { val := s.ctr, ref := s.ctr }, fields := d.fields,
          versionOfId := some i } : VersionDoc F V)]).filter
      (fun v => !(v.oid.val == s.ctr)) = s.versions :=
    mvFilterAppendFresh s.versions s.ctr _ hwf.2 rfl
  simp only [upsertVersionModel, hid, hguard, hfind, hfil]

/-- closed witness for C7: the concrete stale-token upsert is rejected
with the concurrency conflict; the store keeps its documents and only
the counter moved. -/
theorem c7_upsertVersion_witness :
    upsertVersionModel false sC7 dC7 none =
      ({ sC7 with ctr := sC7.ctr + 1 },
       Except.error (UpsertErr.staleRevision dC7.versionId)) :=
  c7_upsertVersion_conflict sC7 dC7 none { val := 1, ref := 9 } { val := 2, ref := 9 }
    (by refine ⟨?_, ?_⟩ <;> decide) rfl rfl (by decide)

/-- Claim C9 evaluated at the failing input: in the flagged
configuration (delete_flag set, append-only off), with a single
matching Active Document and a successful flag update on its active
Version Record, a failing store remove makes deleteOriginal evaluate
`versSaved.remove()` — an identifier that is not declared in that
closure — so a ReferenceError is thrown and the store error never
reaches the callback: the caller receives a thrown exception instead of
exactly one failure.  This theorem exhibits the counter-to-spec
behaviour of part_000 line 492; the spec (store errors are propagated
verbatim to the caller) is the evident intent, making this a code
bug. -/
theorem c9_deleteOriginal_throws :
    (deleteOriginalModel false (some 0) 1 (some "store failure") sC9
       { qId := none, qVersionId := some { val := 2, ref := 5 } } (fun _ => none)).2 =
      DOOutcome.thrown "ReferenceError: versSaved is not defined" := by
  rfl
